import Mathlib

/-!
Verification of the resource-accounting subsystem of chaosblade-exec-os:
cgroup version detection, CPU quota resolution (cgroup v2), memory limit
resolution (cgroup v2 / v1 / host fallback) and the CPU usage sampler.

The Go code is shallowly embedded: every kernel file read is an explicit
`Option String` input (`none` models an IO error), `context.Context`
values are explicit `Option String` parameters, and the `int64` /
`uint64` machine arithmetic is modelled on `Int` / `Nat` with the wrap
of a `uint64`-to-`int64` conversion made explicit.  Real-valued
(`float64`) quantities are modelled on `ℚ`; at every concrete input used
below the `float64` computation is exact, so the rational model agrees
with the code.
-/

set_option autoImplicit false

/-- Errors a Go function can return (the concrete message is irrelevant
to the control flow, only nil-ness vs non-nil-ness is). -/
inductive GoErr where
  | ioError
  | parseError
  | atoiError
  | loadError
  | statError
  | fatalError
  deriving DecidableEq, Repr

/-- Result of running a Go function that returns `(value, error)` and can
additionally abort the process: `ok` models a nil error, `err` a non-nil
error, `panic` a runtime panic (nil-interface type assertion or
out-of-range slice index). -/
inductive GoResult (α : Type) where
  | ok (a : α)
  | err (e : GoErr)
  | panic
  deriving DecidableEq, Repr

/-- Go `unicode.IsSpace` restricted to the ASCII space characters
(the only ones occurring in kernel-provided cgroup files). -/
def isSpaceGo (c : Char) : Bool :=
  c = ' ' || c = '\t' || c = '\n' || c = '\x0b' || c = '\x0c' || c = '\r'

/-- Core of Go `strings.TrimSpace` on a character list. -/
def trimSpaceList (l : List Char) : List Char :=
  ((l.dropWhile isSpaceGo).reverse.dropWhile isSpaceGo).reverse

/-- Go `strings.TrimSpace`. -/
def trimSpace (s : String) : String :=
  ⟨trimSpaceList s.toList⟩

/-- Accumulator pass of Go `strings.Fields`: splits around runs of
whitespace, dropping empty pieces. -/
def fieldsAux : List Char → List Char → List (List Char)
  | [], acc => if acc.isEmpty then [] else [acc.reverse]
  | c :: cs, acc =>
    if isSpaceGo c then
      if acc.isEmpty then fieldsAux cs [] else acc.reverse :: fieldsAux cs []
    else
      fieldsAux cs (c :: acc)

/-- Go `strings.Fields`. -/
def fieldsGo (s : String) : List String :=
  (fieldsAux s.toList []).map fun l => ⟨l⟩

/-- Accumulator pass of Go `strings.Split` with a one-character
separator. -/
def splitOnAux (sep : Char) : List Char → List Char → List (List Char)
  | [], acc => [acc.reverse]
  | c :: cs, acc =>
    if c = sep then acc.reverse :: splitOnAux sep cs []
    else splitOnAux sep cs (c :: acc)

/-- Go `strings.Split(s, "\n")`. -/
def splitLines (s : String) : List String :=
  (splitOnAux '\n' s.toList []).map fun l => ⟨l⟩

/-- Value of a decimal digit character, or `none`. -/
def digitVal (c : Char) : Option Nat :=
  if '0' ≤ c ∧ c ≤ '9' then some (c.toNat - '0'.toNat) else none

/-- Digit-folding pass of Go `strconv.ParseInt` (base 10). -/
def parseDigitsAux : List Char → Nat → Option Nat
  | [], n => some n
  | c :: cs, n =>
    match digitVal c with
    | some d => parseDigitsAux cs (n * 10 + d)
    | none => none

/-- Go `strconv.ParseInt(s, 10, 64)`, modelled as `Option Int`: `none`
stands for a non-nil error (syntax error or 64-bit range overflow; in
every call site of the repository the accompanying clamped value is
discarded when the error is non-nil, so the `Option` model is exact). -/
def parseInt64 (s : String) : Option Int :=
  match s.toList with
  | [] => none
  | '+' :: rest =>
    if rest.isEmpty then none
    else match parseDigitsAux rest 0 with
      | some n => if n ≤ 9223372036854775807 then some (n : Int) else none
      | none => none
  | '-' :: rest =>
    if rest.isEmpty then none
    else match parseDigitsAux rest 0 with
      | some n => if n ≤ 9223372036854775808 then some (-(n : Int)) else none
      | none => none
  | l =>
    match parseDigitsAux l 0 with
    | some n => if n ≤ 9223372036854775807 then some (n : Int) else none
    | none => none

/-- Go `strconv.Atoi` (identical to `ParseInt(s, 10, 64)` on a 64-bit
platform). -/
def atoiGo (s : String) : Option Int := parseInt64 s

/-- Go conversion `int64(u)` of a `uint64` value (modelled as a `Nat`):
two's-complement wrap at `2^63`. -/
def int64ofUint64 (n : Nat) : Int :=
  let m : Nat := n % 2 ^ 64
  if m < 2 ^ 63 then (m : Int) else (m : Int) - 2 ^ 64

/-- Test whether `s` starts with `p` (Go `strings.HasPrefix`), on
character lists. -/
def listStarts : List Char → List Char → Bool
  | _, [] => true
  | [], _ :: _ => false
  | c :: cs, d :: ds => c = d && listStarts cs ds

/-- Go `strings.HasPrefix s p`. -/
def strStarts (s p : String) : Bool :=
  listStarts s.toList p.toList

example : trimSpace "  max \n" = "max" := by decide
example : fieldsGo " 100000  200 " = ["100000", "200"] := by decide
example : parseInt64 "2147483648" = some 2147483648 := by decide
example : parseInt64 "-1" = some (-1) := by decide
example : parseInt64 "12a" = none := by decide
example : int64ofUint64 (2 ^ 63) = -(2 ^ 63) := by decide

/-- The `CPUQuotaStatus` enumeration of `pkg/automaxprocs/runtime`
(declared in a file of the repository whose body is used by
`maxprocs.go` through the constants `CPUQuotaUndefined`,
`CPUQuotaMinUsed` and `CPUQuotaUsed`). -/
inductive CPUQuotaStatus where
  | undefined
  | minUsed
  | used
  deriving DecidableEq, Repr

/-- The `CGroupVersion` enumeration of `pkg/automaxprocs/cgroups`
(`CGroupV1`, `CGroupV2`, `CGroupUnknown`). -/
inductive CGroupVersion where
  | v1
  | v2
  | unknown
  deriving DecidableEq, Repr

/-- Modelled from the spec: `DefaultRoundFunc` of
`pkg/automaxprocs/runtime` is not under `src/` (only its callers are);
the spec fixes the default rounding rule as round-to-nearest whole core
("default: round to nearest whole core"). -/
def defaultRound (v : ℚ) : Int :=
  (v + 1 / 2).floor

/-- `(*CGroupV2Impl).CPUQuota` of
`pkg/automaxprocs/cgroups/cgroup_v2.go`, as a function of the content of
`cpu.max`.  Returns the Go triple `(float64, bool, error)`, the ratio
modelled on `ℚ`. -/
def cpuQuotaV2Content (c : String) : ℚ × Bool × Option GoErr :=
  let quotaStr := trimSpace c
  match fieldsGo quotaStr with
  | [q, p] =>
    if q = "max" then (0, false, none)
    else
      match parseInt64 q with
      | none => (0, false, some .parseError)
      | some quota =>
        match parseInt64 p with
        | none => (0, false, some .parseError)
        | some period =>
          if period ≤ 0 then (0, false, none)
          else ((quota : ℚ) / (period : ℚ), true, none)
  | _ => (0, false, none)

/-- `CPUQuota` including the `os.ReadFile` of `cpu.max` (`none` models a
read error). -/
def cpuQuotaV2 (cpuMaxRead : Option String) : ℚ × Bool × Option GoErr :=
  match cpuMaxRead with
  | none => (0, false, some .ioError)
  | some c => cpuQuotaV2Content c

/-- `GetCPUQuotaToCPUCntByPidForCgroups2` of
`pkg/automaxprocs/runtime/cpu_quota_linux_v2.go`.  `findPath` is the
result of `cgroups.FindCGroupV2Path` (error, or a possibly-empty path),
`cpuMaxRead` the read of `cpu.max` in that path.  The Go `round == nil`
replacement by `DefaultRoundFunc` is left to the caller: `round` is
always supplied here. -/
def getCPUQuotaCntV2 (findPath : GoResult String) (cpuMaxRead : Option String)
    (minValue : Int) (round : ℚ → Int) : Int × CPUQuotaStatus × Option GoErr :=
  match findPath with
  | .panic => (-1, .undefined, some .ioError)
  | .err e => (-1, .undefined, some e)
  | .ok path =>
    if path = "" then (-1, .undefined, none)
    else
      match cpuQuotaV2 cpuMaxRead with
      | (_, _, some e) => (-1, .undefined, some e)
      | (quota, defined, none) =>
        if ¬defined then (-1, .undefined, none)
        else
          let maxProcs := round quota
          if minValue > 0 ∧ maxProcs < minValue then (minValue, .minUsed, none)
          else (maxProcs, .used, none)

/-- `GetCPUCntByPidForCgroups2` of `pkg/automaxprocs/maxprocs.go`: wraps
the v2 resolution with `minValue = 1` and the default rounding, mapping
a non-nil error or an Undefined status to the host logical core count
`numCPU`. -/
def getCPUCntByPidForCgroups2 (findPath : GoResult String)
    (cpuMaxRead : Option String) (numCPU : Int) : Int × Option GoErr :=
  match getCPUQuotaCntV2 findPath cpuMaxRead 1 defaultRound with
  | (_, _, some e) => (numCPU, some e)
  | (cnt, status, none) =>
    match status with
    | .undefined => (numCPU, none)
    | .minUsed => (cnt, none)
    | .used => (cnt, none)

/-- The two concrete resolver implementations `GetCPUCntByPid` of
`pkg/automaxprocs/maxprocs.go` can dispatch to. -/
inductive CPUImplChoice where
  | v2Impl
  | v1Impl
  deriving DecidableEq, Repr

/-- The version dispatch of `GetCPUCntByPid`
(`pkg/automaxprocs/maxprocs.go`): V2 uses the v2 implementation, V1 and
the `default` (Unknown) case both use the v1 implementation. -/
def getCPUCntRoute : CGroupVersion → CPUImplChoice
  | .v2 => .v2Impl
  | .v1 => .v1Impl
  | .unknown => .v1Impl

example : cpuQuotaV2Content "max 100000" = (0, false, none) := by decide
example : cpuQuotaV2Content "100000" = (0, false, none) := by decide
example : cpuQuotaV2Content "100000 0" = (0, false, none) := by decide
example : (cpuQuotaV2Content "150000 100000").2 = (true, none) := by decide
example : cpuQuotaV2Content "abc 100000" = (0, false, some .parseError) := by decide
example : defaultRound (3 / 2) = 2 := by
  rw [defaultRound]
  norm_num
  decide

/-- The `gopsutil` `mem.VirtualMemory()` answer (all fields `uint64`,
modelled as `Nat`); `ok = false` models a non-nil error from the OS
query. -/
structure SysMem where
  ok : Bool
  total : Nat
  free : Nat
  buffers : Nat
  cached : Nat
  deriving DecidableEq, Repr

/-- `getSystemMemory` of `exec/mem/mem_cgroup_v2.go` (identical to the
inlined host fallback of `getAvailableAndTotal` in the memory
dispatcher): host totals, with buffers+cache added to `available` when
the burn mode is `ram` and buffer/cache pages are excluded from the
burn. -/
def getSystemMemory (sys : SysMem) (burnMemMode : String)
    (includeBufferCache : Bool) : GoResult (Int × Int) :=
  if ¬sys.ok then .err .ioError
  else
    let total : Int := int64ofUint64 sys.total
    let available : Int := int64ofUint64 sys.free
    let available : Int :=
      if burnMemMode = "ram" ∧ ¬includeBufferCache then
        available + int64ofUint64 (sys.buffers + sys.cached)
      else available
    .ok (total, available)

/-- The `cgroupRoot := ctx.Value("cgroup-root"); if cgroupRoot == "" {
cgroupRoot = dflt }; cgroupRoot.(string)` pattern shared by
`getAvailableAndTotalV2`, `getAvailableAndTotal` and `getUsed`.  The
context value is `none` when the key was never set; the Go interface
comparison `cgroupRoot == ""` is true only for a set-but-empty string,
and the type assertion `.(string)` panics on the nil interface. -/
def resolveCGroupRoot (dflt : String) (v : Option String) : GoResult String :=
  let v := if v = some "" then some dflt else v
  match v with
  | some s => .ok s
  | none => .panic

/-- `(*CGroupV2Impl).MemoryLimit` of
`pkg/automaxprocs/cgroups/cgroup_v2.go` as a function of the
`memory.max` read (`none` models a read error): `(limit, defined)` or an
error. -/
def memoryLimitV2 (memMaxRead : Option String) : GoResult (Int × Bool) :=
  match memMaxRead with
  | none => .err .ioError
  | some c =>
    let limitStr := trimSpace c
    if limitStr = "max" then .ok (0, false)
    else
      match parseInt64 limitStr with
      | none => .err .parseError
      | some limit => .ok (limit, true)

/-- `getCGroupV2MemoryUsage` of `exec/mem/mem_cgroup_v2.go` as a
function of the `memory.current` read. -/
def memoryUsageV2 (memCurrentRead : Option String) : GoResult Int :=
  match memCurrentRead with
  | none => .err .ioError
  | some c =>
    match parseInt64 (trimSpace c) with
    | none => .err .parseError
    | some usage => .ok usage

/-- Body of `getCGroupV2MemoryCache` of `exec/mem/mem_cgroup_v2.go`:
over the lines of `memory.stat`, sum the second field of every line
starting with `"file "` that has exactly two fields and an integer
second field. -/
def memStatFileSum (c : String) : Int :=
  (splitLines c).foldl
    (fun acc line =>
      if strStarts line "file " then
        match fieldsGo line with
        | [_, v] =>
          match parseInt64 v with
          | some val => acc + val
          | none => acc
        | _ => acc
      else acc)
    0

/-- Inputs of `getAvailableAndTotalV2` (`exec/mem/mem_cgroup_v2.go`):
the two context values, the result of `cgroups.FindCGroupV2Path`, the
three cgroup file reads and the host memory query used by every
fallback. -/
structure MemV2Env where
  pid : Option String
  cgroupRoot : Option String
  findPath : GoResult String
  memMax : Option String
  memCurrent : Option String
  memStat : Option String
  sys : SysMem
  deriving DecidableEq, Repr

/-- `getAvailableAndTotalV2` of `exec/mem/mem_cgroup_v2.go`. -/
def getAvailableAndTotalV2 (env : MemV2Env) (burnMemMode : String)
    (includeBufferCache : Bool) : GoResult (Int × Int) :=
  match env.pid with
  | none => getSystemMemory env.sys burnMemMode includeBufferCache
  | some pidStr =>
    match atoiGo pidStr with
    | none => .err .atoiError
    | some _ =>
      match resolveCGroupRoot "/sys/fs/cgroup" env.cgroupRoot with
      | .panic => .panic
      | .err e => .err e
      | .ok _ =>
        match env.findPath with
        | .panic => .panic
        | .err _ => getSystemMemory env.sys burnMemMode includeBufferCache
        | .ok path =>
          if path = "" then getSystemMemory env.sys burnMemMode includeBufferCache
          else
            match memoryLimitV2 env.memMax with
            | .panic => .panic
            | .err _ => getSystemMemory env.sys burnMemMode includeBufferCache
            | .ok (limit, defined) =>
              if ¬defined ∨ limit = 0 then
                getSystemMemory env.sys burnMemMode includeBufferCache
              else
                match memoryUsageV2 env.memCurrent with
                | .panic => .panic
                | .err _ => getSystemMemory env.sys burnMemMode includeBufferCache
                | .ok usage =>
                  let total := limit
                  let available := total - usage
                  let available :=
                    if burnMemMode = "ram" ∧ ¬includeBufferCache then
                      match env.memStat with
                      | none => available
                      | some st => available + memStatFileSum st
                    else available
                  .ok (total, available)

/-- Modelled from the spec: the constant `PageCounterMax` referenced by
`getAvailableAndTotalV1` is declared in a repository file that is not
under `src/`; the spec describes it as "a fixed 'practically unlimited'
sentinel constant" for cgroup v1 limits.  The value used upstream is
the kernel's page-counter ceiling, just below `2^63`. -/
def PageCounterMax : Nat := 9223372036854770000

/-- The containerd cgroup-v1 statistics consumed by
`getAvailableAndTotalV1` (`stats.Memory.Usage.Limit`,
`stats.Memory.Usage.Usage`, `stats.Memory.Cache`, all `uint64`),
together with the success of `cgroups.Load` / `cgroup.Stat` and whether
`stats != nil`. -/
structure MemV1Env where
  loadOk : Bool
  statOk : Bool
  statsPresent : Bool
  limit : Nat
  usage : Nat
  cache : Nat
  deriving DecidableEq, Repr

/-- `getAvailableAndTotalV1` of the memory dispatcher file
(`src/unnamed/part_000`). -/
def getAvailableAndTotalV1 (env : MemV1Env) (sys : SysMem)
    (burnMemMode : String) (includeBufferCache : Bool) : GoResult (Int × Int) :=
  if ¬env.loadOk then .err .loadError
  else if ¬env.statOk then .err .statError
  else if env.statsPresent ∧ env.limit < PageCounterMax then
    let total : Int := int64ofUint64 env.limit
    let available : Int := total - int64ofUint64 env.usage
    let available : Int :=
      if burnMemMode = "ram" ∧ ¬includeBufferCache then
        available + int64ofUint64 env.cache
      else available
    .ok (total, available)
  else getSystemMemory sys burnMemMode includeBufferCache

/-- `getAvailableAndTotal` of the memory dispatcher
(`src/unnamed/part_000`): no pid means host fallback; otherwise the
detected cgroup version selects the implementation, the `default`
(Unknown) case falling to the v1 implementation.  The version is the
result of `DetectCGroupVersion`, passed explicitly. -/
def getAvailableAndTotal (env2 : MemV2Env) (env1 : MemV1Env)
    (version : CGroupVersion) (burnMemMode : String)
    (includeBufferCache : Bool) : GoResult (Int × Int) :=
  match env2.pid with
  | none => getSystemMemory env2.sys burnMemMode includeBufferCache
  | some pidStr =>
    match atoiGo pidStr with
    | none => .err .atoiError
    | some _ =>
      match resolveCGroupRoot "/sys/fs/cgroup/" env2.cgroupRoot with
      | .panic => .panic
      | .err e => .err e
      | .ok _ =>
        match version with
        | .v2 => getAvailableAndTotalV2 env2 burnMemMode includeBufferCache
        | .v1 => getAvailableAndTotalV1 env1 env2.sys burnMemMode includeBufferCache
        | .unknown => getAvailableAndTotalV1 env1 env2.sys burnMemMode includeBufferCache

example :
    getAvailableAndTotalV2
      ⟨some "1234", some "", .ok "/sys/fs/cgroup/kubepods",
       some "2147483648", some "1073741824", some "file 104857600\n",
       ⟨true, 0, 0, 0, 0⟩⟩ "ram" false
    = .ok (2147483648, 1178599424) := by decide

/-- Concatenation of a directory and a file name, standing for Go
`filepath.Join` (whose additional path cleaning only rewrites the key
under which the filesystem is queried, never the query's outcome, since
the filesystem below is an arbitrary predicate on paths). -/
def joinPath (a b : String) : String :=
  if a = "" then b else a ++ "/" ++ b

/-- Filesystem state consumed by `DetectCGroupVersion`
(`pkg/automaxprocs/cgroups`, Linux build): which paths `os.Stat`
succeeds on, and the lines of `/proc/self/mountinfo` (`none` models a
failing `os.Open`; the file is opened twice by the code but is the same
file both times). -/
structure DetectEnv where
  fsExists : String → Bool
  mountinfo : Option (List String)

/-- One `mountinfo` line matches the cgroup-v2 scan of
`DetectCGroupVersion`: at least 7 whitespace-separated fields, field 6
(the filesystem type) equal to `"cgroup2"` and field 4 (the mount
point) having the cgroup root as a prefix. -/
def lineIsV2 (root line : String) : Bool :=
  let fs := fieldsGo line
  decide (fs.length ≥ 7) &&
    match fs.get? 4, fs.get? 6 with
    | some mountPoint, some fstype => fstype = "cgroup2" && strStarts mountPoint root
    | _, _ => false

/-- One `mountinfo` line matches the cgroup-v1 scan of
`DetectCGroupVersion`: at least 7 fields and field 6 equal to
`"cgroup"`. -/
def lineIsV1 (line : String) : Bool :=
  let fs := fieldsGo line
  decide (fs.length ≥ 7) &&
    match fs.get? 6 with
    | some fstype => fstype = "cgroup"
    | none => false

/-- The first `bufio.Scanner` loop of `DetectCGroupVersion`: scan lines
until one matches the cgroup-v2 test, returning early. -/
def scanV2 (root : String) : List String → Bool
  | [] => false
  | l :: ls => if lineIsV2 root l then true else scanV2 root ls

/-- The second `bufio.Scanner` loop of `DetectCGroupVersion`. -/
def scanV1 : List String → Bool
  | [] => false
  | l :: ls => if lineIsV1 l then true else scanV1 ls

/-- `DetectCGroupVersion` of `pkg/automaxprocs/cgroups` (Linux build):
default the root, test `<root>/cgroup.controllers`, then the two
mountinfo scans, then the assumed default V1.  The function is total:
detection never fails. -/
def detectCGroupVersion (env : DetectEnv) (cgroupRoot : String) : CGroupVersion :=
  let root := if cgroupRoot = "" then "/sys/fs/cgroup" else cgroupRoot
  if env.fsExists (joinPath root "cgroup.controllers") then .v2
  else
    match env.mountinfo with
    | some lines =>
      if scanV2 root lines then .v2
      else if scanV1 lines then .v1
      else .v1
    | none => .v1

/-- Modelled from the spec: the four-step detection order of §4.1, word
for word — controllers file ⇒ V2; else a mount-table entry of the
cgroup-v2 filesystem type under the root ⇒ V2; else an entry of the
cgroup-v1 filesystem type ⇒ V1; else V1 as the assumed default.  Kept
as a second definition to compare the code's scanner loops against. -/
def detectVersionSpec (env : DetectEnv) (cgroupRoot : String) : CGroupVersion :=
  let root := if cgroupRoot = "" then "/sys/fs/cgroup" else cgroupRoot
  if env.fsExists (joinPath root "cgroup.controllers") then .v2
  else if (env.mountinfo.getD []).any (lineIsV2 root) then .v2
  else if (env.mountinfo.getD []).any lineIsV1 then .v1
  else .v1

/-- Fold step of the `cpu.stat` parse loop of `getCGroupV2CPUUsage`
(`exec/network/network_drop.go`, `cpu` package part): trim the line,
skip empty lines and lines without exactly two fields or with a
non-integer value, and record the last `usage_usec`, `user_usec` and
`system_usec` values seen. -/
def cpuStatStep (acc : Int × Int × Int) (line : String) : Int × Int × Int :=
  let line := trimSpace line
  if line = "" then acc
  else
    match fieldsGo line with
    | [k, v] =>
      match parseInt64 v with
      | none => acc
      | some value =>
        if k = "usage_usec" then (value, acc.2.1, acc.2.2)
        else if k = "user_usec" then (acc.1, value, acc.2.2)
        else if k = "system_usec" then (acc.1, acc.2.1, value)
        else acc
    | _ => acc

/-- The `cpu.stat` parse loop: `(usage_usec, user_usec, system_usec)`,
each `0` when its field is absent. -/
def parseCpuStat (c : String) : Int × Int × Int :=
  (splitLines c).foldl cpuStatStep (0, 0, 0)

/-- The total of one reading: `usage_usec`, or `user_usec + system_usec`
when `usage_usec` is zero or absent. -/
def cpuStatTotal (t : Int × Int × Int) : Int :=
  if t.1 = 0 then t.2.1 + t.2.2 else t.1

/-- `getCGroupV2CPUUsage` of the `cpu` package: two reads of `cpu.stat`
separated by the one-second `time.Sleep` window, with
`usage = ((second - first) / 1e6) * 100 / cpuCount`.  The `float64`
arithmetic is modelled on `ℚ`. -/
def getCGroupV2CPUUsage (read1 read2 : Option String) (cpuCount : Int) :
    GoResult ℚ :=
  match read1 with
  | none => .err .ioError
  | some c1 =>
    let firstTotal := cpuStatTotal (parseCpuStat c1)
    match read2 with
    | none => .err .ioError
    | some c2 =>
      let secondTotal := cpuStatTotal (parseCpuStat c2)
      let timeDiff : ℚ := ((secondTotal - firstTotal : Int) : ℚ) / 1000000
      .ok (timeDiff * 100 / (cpuCount : ℚ))

/-- The per-core index guard of the host branch of `getUsed`
(`cpu` package): `log.Fatalf` fires only when `cpuIndex >
len(totalCpuPercent)`. -/
def indexGuardFatal (cpuIndex : Int) (n : Nat) : Bool :=
  decide (cpuIndex > (n : Int))

/-- Go slice indexing `l[i]` with an `int` index: panics unless
`0 ≤ i < len(l)`. -/
def goIndex (l : List ℚ) (i : Int) : GoResult ℚ :=
  if h : 0 ≤ i ∧ i < (l.length : Int) then
    .ok (l.get ⟨i.toNat, by omega⟩)
  else .panic

/-- The per-core tail of the host branch of `getUsed`: apply the index
guard, then index the per-core result slice. -/
def hostPerCpuUsed (l : List ℚ) (cpuIndex : Int) : GoResult ℚ :=
  if indexGuardFatal cpuIndex l.length then .err .fatalError
  else goIndex l cpuIndex

example : parseCpuStat "usage_usec 1000000\nuser_usec 600000\nsystem_usec 400000"
    = (1000000, 600000, 400000) := by decide

/-- C9: when the caller supplies no cgroup-root override — per the
flag contract, the context then carries the empty string (the
`cgroup-root` flag's declared default being `/sys/fs/cgroup`) — every
root-resolution site applies its default root without failing or
panicking, and the memory resolutions behave identically to ones
explicitly rooted at the default, for every remaining input.  (The
memory dispatcher's literal default carries a trailing slash,
`/sys/fs/cgroup/`, denoting the same directory.) -/
theorem c9_default_cgroup_root (env2 : MemV2Env) (env1 : MemV1Env)
    (version : CGroupVersion) (mode : String) (inc : Bool) :
    resolveCGroupRoot "/sys/fs/cgroup" (some "") = .ok "/sys/fs/cgroup" ∧
    resolveCGroupRoot "/sys/fs/cgroup/" (some "") = .ok "/sys/fs/cgroup/" ∧
    getAvailableAndTotalV2 { env2 with cgroupRoot := some "" } mode inc
      = getAvailableAndTotalV2 { env2 with cgroupRoot := some "/sys/fs/cgroup" }
          mode inc ∧
    getAvailableAndTotal { env2 with cgroupRoot := some "" } env1 version mode inc
      = getAvailableAndTotal { env2 with cgroupRoot := some "/sys/fs/cgroup/" }
          env1 version mode inc := by
  refine ⟨by decide, by decide, ?_, ?_⟩
  · simp [getAvailableAndTotalV2, resolveCGroupRoot]
  · simp [getAvailableAndTotal, getAvailableAndTotalV2, resolveCGroupRoot]

/-- C10 counterexample: for the per-core result list `[50]` (length 1),
the index `-1` also passes the `cpuIndex > len` guard and indexes out
of range, while differing from the length — so `cpuIndex = length` is
not the only value that passes the guard yet indexes out of range. -/
theorem c10_counterexample :
    indexGuardFatal (-1) 1 = false ∧ hostPerCpuUsed [50] (-1) = .panic ∧
      (-1 : Int) ≠ 1 := by decide

/-- C10 amended: the guard rejects exactly the indices strictly greater
than the result-list length; indexing succeeds exactly when `0 ≤
cpuIndex < length` (so safe indexing additionally requires strict
inequality); and among the guard-passing values, those that index out
of range are exactly `cpuIndex = length` together with the negative
indices. -/
theorem c10_index_guard (l : List ℚ) (i : Int) :
    (hostPerCpuUsed l i = .err .fatalError ↔ (l.length : Int) < i) ∧
    ((∃ v, hostPerCpuUsed l i = .ok v) ↔ 0 ≤ i ∧ i < (l.length : Int)) ∧
    (hostPerCpuUsed l i = .panic ↔
      i ≤ (l.length : Int) ∧ (i = (l.length : Int) ∨ i < 0)) := by
  rw [hostPerCpuUsed, indexGuardFatal, goIndex]
  by_cases hg : (l.length : Int) < i
  · rw [if_pos (by simpa using hg)]
    refine ⟨⟨fun _ => hg, fun _ => rfl⟩, ?_, ?_⟩
    · constructor
      · rintro ⟨v, hv⟩
        exact GoResult.noConfusion hv
      · intro hb
        omega
    · constructor
      · intro hv
        exact GoResult.noConfusion hv
      · intro hb
        omega
  · rw [if_neg (by simpa using hg)]
    by_cases hb : 0 ≤ i ∧ i < (l.length : Int)
    · rw [dif_pos hb]
      refine ⟨⟨fun hv => GoResult.noConfusion hv, fun hc => absurd hc hg⟩, ?_, ?_⟩
      · exact ⟨fun _ => hb, fun _ => ⟨_, rfl⟩⟩
      · constructor
        · intro hv
          exact GoResult.noConfusion hv
        · intro hc
          omega
    · rw [dif_neg hb]
      refine ⟨⟨fun hv => GoResult.noConfusion hv, fun hc => absurd hc hg⟩, ?_, ?_⟩
      · constructor
        · rintro ⟨v, hv⟩
          exact GoResult.noConfusion hv
        · intro hc
          exact absurd hc hb
      · exact ⟨fun _ => by omega, fun _ => rfl⟩

/-- `uint64`-to-`int64` conversion is the identity below `2^63`. -/
lemma int64ofUint64_eq (n : Nat) (h : n < 2 ^ 63) : int64ofUint64 n = (n : Int) := by
  have h64 : n % 2 ^ 64 = n := Nat.mod_eq_of_lt (by omega)
  simp only [int64ofUint64, h64]
  rw [if_pos h]

/-- Consistency of a host memory report: the free, buffer and cache
pages are disjoint parts of the physical total, and the total fits an
`int64`.  Every real kernel report satisfies this; the code does not
check it. -/
def sysMemConsistent (s : SysMem) : Bool :=
  decide (s.free + s.buffers + s.cached ≤ s.total) && decide (s.total < 2 ^ 63)

/-- Consistency of the cgroup v2 memory files: the current usage
reported by `memory.current` is nonnegative and at least the
reclaimable `file` cache reported by `memory.stat` (which counts pages
included in `memory.current`).  Every real kernel report satisfies
this; the code does not check it. -/
def memV2Consistent (env : MemV2Env) : Bool :=
  match env.memCurrent with
  | none => true
  | some c =>
    match parseInt64 (trimSpace c) with
    | none => true
    | some u =>
      decide (0 ≤ u) &&
        match env.memStat with
        | none => true
        | some st => decide (memStatFileSum st ≤ u)

/-- Consistency of the containerd cgroup v1 statistics: cache is part
of the usage, and usage does not exceed the limit. -/
def memV1Consistent (e : MemV1Env) : Bool :=
  decide (e.cache ≤ e.usage) && decide (e.usage ≤ e.limit)

lemma getSystemMemory_avail_le (s : SysMem) (mode : String) (inc : Bool)
    (t a : Int) (hcons : sysMemConsistent s = true)
    (hok : getSystemMemory s mode inc = .ok (t, a)) : a ≤ t := by
  rw [sysMemConsistent, Bool.and_eq_true, decide_eq_true_eq, decide_eq_true_eq]
    at hcons
  obtain ⟨hle, hlt⟩ := hcons
  rw [getSystemMemory] at hok
  split at hok
  · exact GoResult.noConfusion hok
  · have e1 : int64ofUint64 s.total = (s.total : Int) := int64ofUint64_eq _ hlt
    have e2 : int64ofUint64 s.free = (s.free : Int) :=
      int64ofUint64_eq _ (by omega)
    have e3 : int64ofUint64 (s.buffers + s.cached)
        = ((s.buffers + s.cached : Nat) : Int) := int64ofUint64_eq _ (by omega)
    simp only [GoResult.ok.injEq, Prod.mk.injEq] at hok
    obtain ⟨ht, ha⟩ := hok
    by_cases hmc : mode = "ram" ∧ ¬inc
    · rw [if_pos hmc, e2, e3] at ha
      rw [e1] at ht
      omega
    · rw [if_neg hmc, e2] at ha
      rw [e1] at ht
      omega

lemma memV2_avail_le (env : MemV2Env) (mode : String) (inc : Bool) (t a : Int)
    (hsys : sysMemConsistent env.sys = true) (hv2 : memV2Consistent env = true)
    (hok : getAvailableAndTotalV2 env mode inc = .ok (t, a)) : a ≤ t := by
  rw [getAvailableAndTotalV2] at hok
  cases hp : env.pid with
  | none =>
    rw [hp] at hok
    exact getSystemMemory_avail_le _ _ _ _ _ hsys hok
  | some ps =>
    simp only [hp] at hok
    cases ha : atoiGo ps with
    | none => simp only [ha] at hok; exact GoResult.noConfusion hok
    | some pv =>
      simp only [ha] at hok
      cases hr : resolveCGroupRoot "/sys/fs/cgroup" env.cgroupRoot with
      | panic => simp only [hr] at hok; exact GoResult.noConfusion hok
      | err e => simp only [hr] at hok; exact GoResult.noConfusion hok
      | ok rt =>
        simp only [hr] at hok
        cases hf : env.findPath with
        | panic => simp only [hf] at hok; exact GoResult.noConfusion hok
        | err e =>
          simp only [hf] at hok
          exact getSystemMemory_avail_le _ _ _ _ _ hsys hok
        | ok path =>
          simp only [hf] at hok
          by_cases hpe : path = ""
          · rw [if_pos hpe] at hok
            exact getSystemMemory_avail_le _ _ _ _ _ hsys hok
          · rw [if_neg hpe] at hok
            cases hm : memoryLimitV2 env.memMax with
            | panic => simp only [hm] at hok; exact GoResult.noConfusion hok
            | err e =>
              simp only [hm] at hok
              exact getSystemMemory_avail_le _ _ _ _ _ hsys hok
            | ok lp =>
              obtain ⟨L, defined⟩ := lp
              simp only [hm] at hok
              by_cases hd : (¬defined = true ∨ L = 0)
              · rw [if_pos hd] at hok
                exact getSystemMemory_avail_le _ _ _ _ _ hsys hok
              · rw [if_neg hd] at hok
                cases hu : memoryUsageV2 env.memCurrent with
                | panic => simp only [hu] at hok; exact GoResult.noConfusion hok
                | err e =>
                  simp only [hu] at hok
                  exact getSystemMemory_avail_le _ _ _ _ _ hsys hok
                | ok U =>
                  simp only [hu] at hok
                  have hUc : 0 ≤ U ∧
                      (∀ st, env.memStat = some st → memStatFileSum st ≤ U) := by
                    rw [memV2Consistent] at hv2
                    cases hc : env.memCurrent with
                    | none =>
                      rw [hc, memoryUsageV2] at hu
                      exact GoResult.noConfusion hu
                    | some cs =>
                      simp only [hc] at hv2
                      rw [hc, memoryUsageV2] at hu
                      cases hpc : parseInt64 (trimSpace cs) with
                      | none =>
                        simp only [hpc] at hu
                        exact GoResult.noConfusion hu
                      | some U2 =>
                        simp only [hpc] at hu hv2
                        simp only [GoResult.ok.injEq] at hu
                        subst hu
                        rw [Bool.and_eq_true, decide_eq_true_eq] at hv2
                        refine ⟨hv2.1, ?_⟩
                        intro st hst
                        have h2 := hv2.2
                        rw [hst, decide_eq_true_eq] at h2
                        exact h2
                  obtain ⟨hU0, hstb⟩ := hUc
                  simp only [GoResult.ok.injEq, Prod.mk.injEq] at hok
                  obtain ⟨ht, ha2⟩ := hok
                  by_cases hmc : mode = "ram" ∧ ¬inc
                  · rw [if_pos hmc] at ha2
                    cases hst : env.memStat with
                    | none => simp only [hst] at ha2; omega
                    | some st =>
                      simp only [hst] at ha2
                      have := hstb st hst
                      omega
                  · rw [if_neg hmc] at ha2
                    omega

lemma memV1_avail_le (env : MemV1Env) (s : SysMem) (mode : String) (inc : Bool)
    (t a : Int) (hsys : sysMemConsistent s = true)
    (hv1 : memV1Consistent env = true)
    (hok : getAvailableAndTotalV1 env s mode inc = .ok (t, a)) : a ≤ t := by
  rw [memV1Consistent, Bool.and_eq_true, decide_eq_true_eq, decide_eq_true_eq]
    at hv1
  obtain ⟨hcu, hul⟩ := hv1
  rw [getAvailableAndTotalV1] at hok
  split at hok
  · exact GoResult.noConfusion hok
  · split at hok
    · exact GoResult.noConfusion hok
    · split at hok
      · rename_i hb
        have hlim : env.limit < 2 ^ 63 := by
          have : PageCounterMax < 2 ^ 63 := by norm_num [PageCounterMax]
          omega
        have e1 : int64ofUint64 env.limit = (env.limit : Int) :=
          int64ofUint64_eq _ hlim
        have e2 : int64ofUint64 env.usage = (env.usage : Int) :=
          int64ofUint64_eq _ (by omega)
        have e3 : int64ofUint64 env.cache = (env.cache : Int) :=
          int64ofUint64_eq _ (by omega)
        simp only [GoResult.ok.injEq, Prod.mk.injEq] at hok
        obtain ⟨ht, ha⟩ := hok
        by_cases hmc : mode = "ram" ∧ ¬inc
        · rw [if_pos hmc, e1, e2, e3] at ha
          rw [e1] at ht
          omega
        · rw [if_neg hmc, e1, e2] at ha
          rw [e1] at ht
          omega
      · exact getSystemMemory_avail_le _ _ _ _ _ hsys hok

/-- C8 counterexample: a cgroup v2 resolution whose `memory.stat` file
field (50) exceeds `memory.current` (10) returns total 100 and
available 140 — `available ≤ total` fails on the code as stated, since
no clamping is performed. -/
theorem c8_counterexample :
    getAvailableAndTotalV2
      ⟨some "1", some "", .ok "/sys/fs/cgroup/x", some "100", some "10",
       some "file 50", ⟨true, 0, 0, 0, 0⟩⟩ "ram" false
      = .ok (100, 140) ∧ ¬((140 : Int) ≤ (100 : Int)) := by decide

/-- C8 amended: `available ≤ total` holds for every pair returned by
the host fallback, the cgroup v2 path and the cgroup v1 path, provided
the kernel-reported figures are consistent — host free+buffers+cache
not exceeding the total, reported usage nonnegative and at least the
reported reclaimable cache; the code itself performs no clamping, so
inconsistent reports (see the counterexample) violate the invariant. -/
theorem c8_available_le_total :
    (∀ (s : SysMem) (mode : String) (inc : Bool) (t a : Int),
      sysMemConsistent s = true →
      getSystemMemory s mode inc = .ok (t, a) → a ≤ t) ∧
    (∀ (env : MemV2Env) (mode : String) (inc : Bool) (t a : Int),
      sysMemConsistent env.sys = true → memV2Consistent env = true →
      getAvailableAndTotalV2 env mode inc = .ok (t, a) → a ≤ t) ∧
    (∀ (env : MemV1Env) (s : SysMem) (mode : String) (inc : Bool) (t a : Int),
      sysMemConsistent s = true → memV1Consistent env = true →
      getAvailableAndTotalV1 env s mode inc = .ok (t, a) → a ≤ t) :=
  ⟨fun s mode inc t a h1 h2 => getSystemMemory_avail_le s mode inc t a h1 h2,
   fun env mode inc t a h1 h2 h3 => memV2_avail_le env mode inc t a h1 h2 h3,
   fun env s mode inc t a h1 h2 h3 => memV1_avail_le env s mode inc t a h1 h2 h3⟩

/-- Witness for the amended C8: one consistent concrete input per tier. -/
theorem c8_available_le_total_witness :
    ((450 : Int) ≤ (1000 : Int)) ∧ ((90 : Int) ≤ (100 : Int)) ∧
      ((95 : Int) ≤ (100 : Int)) :=
  ⟨c8_available_le_total.1 ⟨true, 1000, 400, 30, 20⟩ "ram" false 1000 450
      (by decide) (by decide),
   c8_available_le_total.2.1
      ⟨some "1", some "", .ok "/sys/fs/cgroup/x", some "100", some "10", none,
       ⟨true, 0, 0, 0, 0⟩⟩ "cache" true 100 90 (by decide) (by decide) (by decide),
   c8_available_le_total.2.2 ⟨true, true, true, 100, 10, 5⟩ ⟨true, 0, 0, 0, 0⟩
      "ram" false 100 95 (by decide) (by decide) (by decide)⟩

/-- C1: for every cgroup v2 memory resolution with a defined, non-zero
`memory.max` limit, when the reclaimable-cache policy is selected (in
the code: burn mode `"ram"` with buffer/cache pages excluded from the
burn, the condition under which `getAvailableAndTotalV2` counts the
cache as available) the returned pair satisfies `total = limit` and
`available = total - memory.current + (sum of the file field of
memory.stat)`. -/
theorem c1_mem_v2_available (env : MemV2Env)
    (ps rt path maxc curc st : String) (pv L U : Int)
    (hpid : env.pid = some ps) (hatoi : atoiGo ps = some pv)
    (hroot : resolveCGroupRoot "/sys/fs/cgroup" env.cgroupRoot = .ok rt)
    (hfind : env.findPath = .ok path) (hpath : path ≠ "")
    (hmax : env.memMax = some maxc) (hmaxS : trimSpace maxc ≠ "max")
    (hL : parseInt64 (trimSpace maxc) = some L) (hL0 : L ≠ 0)
    (hcur : env.memCurrent = some curc)
    (hU : parseInt64 (trimSpace curc) = some U)
    (hst : env.memStat = some st) :
    getAvailableAndTotalV2 env "ram" false = .ok (L, L - U + memStatFileSum st) := by
  simp only [getAvailableAndTotalV2, hpid, hatoi, hroot, hfind, if_neg hpath,
    memoryLimitV2, hmax, if_neg hmaxS, hL, memoryUsageV2, hcur, hU, hst]
  simp [hL0]

/-- C2 counterexample: the cpu.max content `"100000"` has one
whitespace-separated token, yet the v2 resolution succeeds with status
Undefined and a nil error — no non-nil error reaches the caller, so the
claim that malformed content aborts the V2 branch with an error is
false. -/
theorem c2_counterexample :
    (fieldsGo (trimSpace "100000")).length ≠ 2 ∧
    getCPUQuotaCntV2 (.ok "/sys/fs/cgroup/kubepods") (some "100000") 1
      defaultRound = (-1, .undefined, none) := by decide

/-- C2 amended: for every cpu.max content that is malformed — token
count not exactly two, or a parsed period that is not strictly positive
— `CPUQuota` returns `(0, false, nil)`, the v2 resolution returns
status Undefined with a nil error (it does not abort with an error),
and the caller `GetCPUCntByPidForCgroups2` therefore answers the host
`NumCPU` with a nil error instead of falling through to the V1 tier. -/
theorem c2_malformed_is_undefined (c path : String) (minV : Int)
    (round : ℚ → Int) (numCPU : Int) (hpath : path ≠ "")
    (hmal : (fieldsGo (trimSpace c)).length ≠ 2 ∨
      ∃ q p quota period, fieldsGo (trimSpace c) = [q, p] ∧ q ≠ "max" ∧
        parseInt64 q = some quota ∧ parseInt64 p = some period ∧ period ≤ 0) :
    cpuQuotaV2Content c = (0, false, none) ∧
    getCPUQuotaCntV2 (.ok path) (some c) minV round = (-1, .undefined, none) ∧
    getCPUCntByPidForCgroups2 (.ok path) (some c) numCPU = (numCPU, none) := by
  have hc : cpuQuotaV2Content c = (0, false, none) := by
    rcases hmal with hlen | ⟨q, p, quota, period, hf, hq, hquota, hperiod, hle⟩
    · rcases hl : fieldsGo (trimSpace c) with _ | ⟨x, _ | ⟨y, _ | ⟨z, zs⟩⟩⟩
      · simp [cpuQuotaV2Content, hl]
      · simp [cpuQuotaV2Content, hl]
      · exact absurd (by rw [hl]; rfl) hlen
      · simp [cpuQuotaV2Content, hl]
    · simp [cpuQuotaV2Content, hf, hq, hquota, hperiod, hle]
  refine ⟨hc, ?_, ?_⟩
  · simp [getCPUQuotaCntV2, cpuQuotaV2, hc, hpath]
  · simp [getCPUCntByPidForCgroups2, getCPUQuotaCntV2, cpuQuotaV2, hc, hpath]

/-- Witness for the amended C2 at the content `"100000 0"` (period not
strictly positive). -/
theorem c2_malformed_is_undefined_witness :
    cpuQuotaV2Content "100000 0" = (0, false, none) ∧
    getCPUQuotaCntV2 (.ok "/sys/fs/cgroup/kubepods") (some "100000 0") 3
      defaultRound = (-1, .undefined, none) ∧
    getCPUCntByPidForCgroups2 (.ok "/sys/fs/cgroup/kubepods")
      (some "100000 0") 8 = (8, none) :=
  c2_malformed_is_undefined "100000 0" "/sys/fs/cgroup/kubepods" 3 defaultRound 8
    (by decide)
    (Or.inr ⟨"100000", "0", 100000, 0, by decide, by decide, by decide,
      by decide, by decide⟩)

/-- C3 counterexample: with version detection reporting Unknown, the
memory resolution returns the cgroup v1 figures `(100, 90)` and not the
host fallback figures `(1000, 500)` — it attempts the
cgroup-version-specific v1 read path rather than going straight to the
host fallback provider; likewise the CPU dispatch routes Unknown to the
v1 implementation. -/
theorem c3_counterexample :
    getAvailableAndTotal
      ⟨some "1", some "", .ok "", none, none, none, ⟨true, 1000, 500, 0, 0⟩⟩
      ⟨true, true, true, 100, 10, 0⟩ .unknown "cache" true
      = .ok (100, 90) ∧
    getSystemMemory ⟨true, 1000, 500, 0, 0⟩ "cache" true = .ok (1000, 500) ∧
    GoResult.ok ((100 : Int), (90 : Int)) ≠ .ok (1000, 500) ∧
    getCPUCntRoute .unknown = .v1Impl := by decide

/-- C3 amended: a detection result of Unknown is treated identically to
V1 by both resolvers — the dispatch falls through to the cgroup v1
branch (surfacing no error of its own), and the host fallback is
reached only if that branch itself falls back. -/
theorem c3_unknown_routes_to_v1 (env2 : MemV2Env) (env1 : MemV1Env)
    (mode : String) (inc : Bool) :
    getAvailableAndTotal env2 env1 .unknown mode inc
      = getAvailableAndTotal env2 env1 .v1 mode inc ∧
    getCPUCntRoute .unknown = getCPUCntRoute .v1 :=
  ⟨rfl, rfl⟩

/-- C4: for cpu.max content `"<quota> <period>"` with quota > 0 and
period > 0, the v2 resolution applies the caller-supplied rounding
function to quota/period and returns the rounded value with status Used
when it reaches `minValue`, and `minValue` with status MinUsed when the
rounded value is below `minValue`.  The single assumption on the
rounding function is that it does not send the positive ratio below
zero (true of any rounding rule, in particular of the default
round-to-nearest). -/
theorem c4_quota_ratio_rounding (c q p path : String)
    (quota period minV : Int) (round : ℚ → Int)
    (hf : fieldsGo (trimSpace c) = [q, p]) (hq : q ≠ "max")
    (hquota : parseInt64 q = some quota) (hperiod : parseInt64 p = some period)
    (hqpos : 0 < quota) (hppos : 0 < period) (hpath : path ≠ "")
    (hrnn : 0 ≤ round ((quota : ℚ) / (period : ℚ))) :
    (minV ≤ round ((quota : ℚ) / (period : ℚ)) →
      getCPUQuotaCntV2 (.ok path) (some c) minV round
        = (round ((quota : ℚ) / (period : ℚ)), .used, none)) ∧
    (round ((quota : ℚ) / (period : ℚ)) < minV →
      getCPUQuotaCntV2 (.ok path) (some c) minV round
        = (minV, .minUsed, none)) := by
  have hc : cpuQuotaV2Content c = ((quota : ℚ) / (period : ℚ), true, none) := by
    simp only [cpuQuotaV2Content, hf, if_neg hq, hquota, hperiod]
    rw [if_neg (by omega)]
  constructor
  · intro hge
    have hno : ¬(minV > 0 ∧ round ((quota : ℚ) / (period : ℚ)) < minV) := by omega
    simp [getCPUQuotaCntV2, cpuQuotaV2, hc, hpath, hno]
  · intro hlt
    have hpos : minV > 0 := by omega
    simp [getCPUQuotaCntV2, cpuQuotaV2, hc, hpath, hlt, hpos]

/-- Witness for C4: content `"150000 100000"`, minimum 1, default
rounding — ratio 1.5 rounds to 2 ≥ 1, so `(2, Used)`. -/
theorem c4_quota_ratio_rounding_witness :
    getCPUQuotaCntV2 (.ok "/sys/fs/cgroup/kubepods") (some "150000 100000") 1
      defaultRound = (2, .used, none) := by
  have hr : defaultRound (((150000 : Int) : ℚ) / ((100000 : Int) : ℚ)) = 2 := by
    rw [defaultRound]
    norm_num
    decide
  have h := (c4_quota_ratio_rounding "150000 100000" "150000" "100000"
    "/sys/fs/cgroup/kubepods" 150000 100000 1 defaultRound
    (by decide) (by decide) (by decide) (by decide) (by decide) (by decide)
    (by decide) (by rw [hr]; decide)).1 (by rw [hr]; decide)
  rw [h, hr]

/-- C5: any cpu.max content whose quota token (first field) is the
literal marker `"max"` yields status Undefined with a nil error, never
a numeric Used value, for every minimum-core argument and rounding
function. -/
theorem c5_max_marker_undefined (c path : String) (rest : List String)
    (minV : Int) (round : ℚ → Int)
    (hf : fieldsGo (trimSpace c) = "max" :: rest) (hpath : path ≠ "") :
    getCPUQuotaCntV2 (.ok path) (some c) minV round = (-1, .undefined, none) := by
  have hc : cpuQuotaV2Content c = (0, false, none) := by
    rcases rest with _ | ⟨x, _ | ⟨y, ys⟩⟩
    · simp [cpuQuotaV2Content, hf]
    · simp [cpuQuotaV2Content, hf]
    · simp [cpuQuotaV2Content, hf]
  simp [getCPUQuotaCntV2, cpuQuotaV2, hc, hpath]

/-- Witness for C5 at the spec's example `"max 100000"` with minimum 5. -/
theorem c5_max_marker_undefined_witness :
    getCPUQuotaCntV2 (.ok "/sys/fs/cgroup/kubepods") (some "max 100000") 5
      defaultRound = (-1, .undefined, none) :=
  c5_max_marker_undefined "max 100000" "/sys/fs/cgroup/kubepods" ["100000"] 5
    defaultRound (by decide) (by decide)

/-- Witness for C1 at the spec's scenario: `memory.max = 2147483648`,
`memory.current = 1073741824`, `memory.stat` file field `104857600`,
cache included in available ⇒ total `2147483648`, available
`1178599424`. -/
theorem c1_mem_v2_available_witness :
    getAvailableAndTotalV2
      ⟨some "1234", some "", .ok "/sys/fs/cgroup/kubepods",
       some "2147483648", some "1073741824", some "file 104857600\n",
       ⟨true, 0, 0, 0, 0⟩⟩ "ram" false
    = .ok (2147483648, 1178599424) := by
  have h := c1_mem_v2_available
    ⟨some "1234", some "", .ok "/sys/fs/cgroup/kubepods",
     some "2147483648", some "1073741824", some "file 104857600\n",
     ⟨true, 0, 0, 0, 0⟩⟩
    "1234" "/sys/fs/cgroup" "/sys/fs/cgroup/kubepods" "2147483648"
    "1073741824" "file 104857600\n" 1234 2147483648 1073741824
    (by decide) (by decide) (by decide) (by decide) (by decide) (by decide)
    (by decide) (by decide) (by decide) (by decide) (by decide) (by decide)
  exact h.trans (by decide)
example : detectCGroupVersion ⟨fun _ => false, some ["1 2 3 4 /sys/fs/cgroup 6 cgroup2 x"]⟩ ""
    = .v2 := by decide
example : hostPerCpuUsed [50] (-1) = .panic := by decide
example : hostPerCpuUsed [50] 1 = .panic := by decide
example : hostPerCpuUsed [50] 2 = .err .fatalError := by decide

lemma scanV2_eq_any (root : String) (ls : List String) :
    scanV2 root ls = ls.any (lineIsV2 root) := by
  induction ls with
  | nil => rfl
  | cons l ls ih =>
    rw [scanV2, List.any_cons, ih]
    cases h : lineIsV2 root l <;> simp [h]

lemma scanV1_eq_any (ls : List String) : scanV1 ls = ls.any lineIsV1 := by
  induction ls with
  | nil => rfl
  | cons l ls ih =>
    rw [scanV1, List.any_cons, ih]
    cases h : lineIsV1 l <;> simp [h]

/-- C6: version detection is a total function (it never fails) and
agrees everywhere with the spec's four-step first-match order:
controllers file ⇒ V2, else a cgroup2-type mount entry under the root
⇒ V2, else a cgroup-type mount entry ⇒ V1, else V1 as the assumed
default. -/
theorem c6_detect_first_match_order (env : DetectEnv) (cgroupRoot : String) :
    detectCGroupVersion env cgroupRoot = detectVersionSpec env cgroupRoot := by
  unfold detectCGroupVersion detectVersionSpec
  cases hm : env.mountinfo with
  | none => simp
  | some lines => simp [scanV2_eq_any, scanV1_eq_any]

/-- C7: the cgroup v2 usage sample is the delta of the cumulative
`usage_usec` reading across the one-second sleep window (converted from
microseconds to seconds), times 100, divided by the entitlement core
count — whenever `usage_usec` is present and non-zero in both reads, so
that the `user_usec + system_usec` substitute is not used. -/
theorem c7_usage_from_usage_usec (c1 c2 : String) (n u1 a1 b1 u2 a2 b2 : Int)
    (h1 : parseCpuStat c1 = (u1, a1, b1)) (h10 : u1 ≠ 0)
    (h2 : parseCpuStat c2 = (u2, a2, b2)) (h20 : u2 ≠ 0) :
    getCGroupV2CPUUsage (some c1) (some c2) n
      = .ok (((u2 - u1 : Int) : ℚ) / 1000000 * 100 / (n : ℚ)) := by
  simp [getCGroupV2CPUUsage, cpuStatTotal, h1, h2, h10, h20]

/-- Witness for C7 at the spec's scenario: `usage_usec` 1000000 then
1500000 one second later, entitlement 2 cores ⇒ exactly 25 percent. -/
theorem c7_usage_from_usage_usec_witness :
    getCGroupV2CPUUsage
      (some "usage_usec 1000000\nuser_usec 600000\nsystem_usec 400000")
      (some "usage_usec 1500000\nuser_usec 900000\nsystem_usec 600000") 2
      = .ok 25 := by
  have h := c7_usage_from_usage_usec
    "usage_usec 1000000\nuser_usec 600000\nsystem_usec 400000"
    "usage_usec 1500000\nuser_usec 900000\nsystem_usec 600000"
    2 1000000 600000 400000 1500000 900000 600000
    (by decide) (by decide) (by decide) (by decide)
  have hval : (((1500000 - 1000000 : Int) : ℚ) / 1000000 * 100 / ((2 : Int) : ℚ))
      = 25 := by norm_num
  rw [h, hval]
